import Mathlib

/-!
Verification of the tray countdown-timer program in `src/main.rs` (the
full-feature build whose `main` contains the event loop; the other two
`main` variants only print a message and hold no timer logic).

The event-loop closure is embedded as a step function `handleEvent` on an
explicit state record.  Mutable captures of the closure become fields:
`current_status`, `current_time_left` (a `std::time::Duration`, non-negative,
used at whole-second granularity, so embedded as `Nat` seconds) and
`system_tray` (an `Option<SystemTray>`; we track only whether it is `Some`,
as a `Bool`).  Calls into the tray resource (`set_title`, and the release
performed by dropping the tray on quit) are collected as a trace list.
`tao::ControlFlow` is embedded with `WaitUntil` carrying the duration passed
to `control_wait_until` (the absolute `Instant` is wall clock and not
modelled).  Rust `Duration` subtraction panics on underflow; it is embedded
as an `Option`-returning subtraction, and a panic makes `handleEvent`
return `none`.
-/

/-- Timer status, from the `Status` enum in `main`. -/
inductive Status where
  | Idle
  | Running
  | Paused
deriving DecidableEq, Repr

/-- Kinds of `tao::event::TrayEvent`; the source handles `LeftClick` and
ignores the rest with a wildcard arm. -/
inductive TrayEventKind where
  | LeftClick
  | RightClick
  | DoubleClick
deriving DecidableEq, Repr

/-- Embedding of `tao::event_loop::ControlFlow`.  `WaitUntil` records the
duration (in seconds) that `control_wait_until` adds to `Instant::now()`. -/
inductive ControlFlow where
  | Poll
  | Wait
  | WaitUntil (timer : Nat)
  | Exit
deriving DecidableEq, Repr

/-- Observable calls on the tray resource: `tray.set_title(text)` and the
release of the OS icon performed by dropping the `SystemTray` value
(`system_tray.take()` on the Quit menu item). -/
inductive TrayCall where
  | SetTitle (text : String)
  | Release
deriving DecidableEq, Repr

/-- The mutable state captured by the event-loop closure: `current_status`,
`current_time_left` (whole seconds of the `Duration`) and whether the
`Option<SystemTray>` still holds the tray resource. -/
structure AppState where
  current_status : Status
  current_time_left : Nat
  system_tray : Bool
deriving DecidableEq, Repr

/-- Menu-item identifiers.  The source compares the incoming `menu_id` by
identity against `menu_item.id()` (the "Clear" item, added first) and
`quit.id()` (the native Quit item, added second); they are distinct opaque
ids, embedded as distinct naturals. -/
def clear_menu_id : Nat := 0

/-- Identifier of the native Quit menu item (see `clear_menu_id`). -/
def quit_menu_id : Nat := 1

/-- Tray identifier: `TrayId::new("main-tray")` in the source. -/
def main_tray_id : String := "main-tray"

/-- Events delivered to the event-loop closure.  `MenuEvent` stands for
`Event::MenuEvent` with `origin: MenuType::ContextMenu` (the only origin
the source matches); `TrayEvent` carries the tray id and the click kind;
every event shape the source sends to its wildcard arm is `Other`. -/
inductive Event where
  | Init
  | ResumeTimeReached
  | MenuEvent (menu_id : Nat)
  | TrayEvent (id : String) (kind : TrayEventKind)
  | Other
deriving DecidableEq, Repr

/-- The `one_second` constant, `Duration::new(1, 0)`, in seconds. -/
def one_second : Nat := 1

/-- The `zero_seconds` constant, `Duration::new(0, 0)`, in seconds. -/
def zero_seconds : Nat := 0

/-- The `twenty_minutes` constant, `Duration::new(20 * 60, 0)`, in seconds. -/
def twenty_minutes : Nat := 20 * 60

/-- Rust `Duration - Duration`: defined when no underflow, panics
otherwise; embedding returns `none` on the panicking branch. -/
def duration_sub (a b : Nat) : Option Nat :=
  if b ≤ a then some (a - b) else none

/-- The `format_number` helper: zero-pad a number below 10. -/
def format_number (number : Nat) : String :=
  if number < 10 then "0" ++ toString number else toString number

/-- The `format_timer` helper: split whole seconds into minutes and the
second remainder and render as MM:SS. -/
def format_timer (current_time_left : Nat) : String :=
  let time_left_seconds := current_time_left
  let remaining_minutes := time_left_seconds / 60
  let remaining_seconds := time_left_seconds - remaining_minutes * 60
  format_number remaining_minutes ++ ":" ++ format_number remaining_seconds

/-- The `control_wait_until` helper: `ControlFlow::WaitUntil(Instant::now()
+ timer)`, keeping the duration. -/
def control_wait_until (timer : Nat) : ControlFlow :=
  ControlFlow.WaitUntil timer

/-- One invocation of the event-loop closure.  Takes the captured state and
the current `control_flow` (which persists across invocations when the
closure does not assign it) and returns the new state, the new control
flow and the tray calls made, in order; `none` models a panic (the only
panic site is the `Duration` subtraction in the tick arm). -/
def handleEvent (st : AppState) (cf : ControlFlow) (ev : Event) :
    Option (AppState × ControlFlow × List TrayCall) :=
  match ev with
  | Event.Init =>
      -- Event::NewEvents(StartCause::Init): print, then `Wait`.
      some (st, ControlFlow.Wait, [])
  | Event.ResumeTimeReached =>
      -- Event::NewEvents(StartCause::ResumeTimeReached { .. })
      if st.current_status = Status.Running then
        match duration_sub st.current_time_left one_second with
        | none => none
        | some t =>
            let st2 := { st with current_time_left := t }
            if st2.system_tray then
              some (st2, control_wait_until one_second,
                [TrayCall.SetTitle (format_timer st2.current_time_left)])
            else
              some (st2, cf, [])
      else
        some (st, cf, [])
  | Event.MenuEvent menu_id =>
      if menu_id = quit_menu_id then
        -- drop the system tray before exiting (`system_tray.take()`)
        some ({ st with system_tray := false }, ControlFlow.Exit,
          if st.system_tray then [TrayCall.Release] else [])
      else if menu_id = clear_menu_id then
        if st.system_tray then
          let st2 := { st with
            current_status := Status.Idle
            current_time_left := zero_seconds }
          some (st2, ControlFlow.Wait,
            [TrayCall.SetTitle (format_timer st2.current_time_left)])
        else
          some (st, cf, [])
      else
        some (st, cf, [])
  | Event.TrayEvent id kind =>
      if id = main_tray_id then
        match kind with
        | TrayEventKind.LeftClick =>
            if st.system_tray then
              match st.current_status with
              | Status.Idle =>
                  let st2 := { st with
                    current_status := Status.Running
                    current_time_left := twenty_minutes }
                  some (st2, control_wait_until one_second,
                    [TrayCall.SetTitle (format_timer st2.current_time_left)])
              | Status.Running =>
                  let st2 := { st with current_status := Status.Paused }
                  some (st2, ControlFlow.Wait,
                    [TrayCall.SetTitle (format_timer st2.current_time_left)])
              | Status.Paused =>
                  some ({ st with current_status := Status.Running },
                    control_wait_until one_second, [])
            else
              some (st, cf, [])
        | _ => some (st, cf, [])
      else
        some (st, cf, [])
  | Event.Other => some (st, cf, [])

/-- Deliver a list of events in order, threading state and control flow and
concatenating the tray-call traces; a panic anywhere gives `none`. -/
def runEvents (st : AppState) (cf : ControlFlow) :
    List Event → Option (AppState × ControlFlow × List TrayCall)
  | [] => some (st, cf, [])
  | ev :: evs =>
      match handleEvent st cf ev with
      | none => none
      | some (st2, cf2, calls) =>
          match runEvents st2 cf2 evs with
          | none => none
          | some (st3, cf3, rest) => some (st3, cf3, calls ++ rest)

/-- State at process start: `Status::Idle`, `Duration::new(0, 0)`, and the
tray built (`Some(system_tray)`). -/
def initial_state : AppState :=
  { current_status := Status.Idle
    current_time_left := 0
    system_tray := true }

/-- The event loop starts with `ControlFlow::Poll` (tao default) before the
`Init` event sets `Wait`. -/
def initial_control_flow : ControlFlow := ControlFlow.Poll

/-- A burst of `n` consecutive tick events. -/
def ticks (n : Nat) : List Event :=
  List.replicate n Event.ResumeTimeReached

/-- The label pushes (`set_title` texts) within a tray-call trace. -/
def labelPushes (calls : List TrayCall) : List String :=
  calls.filterMap fun c =>
    match c with
    | TrayCall.SetTitle s => some s
    | TrayCall.Release => none

/-- Zero-padding written the way the spec words it: a leading zero exactly
when the component is 0 to 9. -/
def spec_pad2 (n : Nat) : String :=
  if n ≤ 9 then "0" ++ toString n else toString n

/-! Helper lemmas shared by the claim theorems. -/

/-- The padding of `format_number` agrees with the padding the spec words
describe. -/
theorem format_number_eq_spec_pad2 (n : Nat) : format_number n = spec_pad2 n := by
  unfold format_number spec_pad2
  rcases Nat.lt_or_ge n 10 with h | h
  · rw [if_pos h, if_pos (by omega)]
  · rw [if_neg (by omega), if_neg (by omega)]

/-- A tick delivered to a Running session with the tray available and at
least one second left: subtract one second, push the new label, rearm the
one-second wake-up. -/
theorem handleEvent_tick_running (r : Nat) (cf : ControlFlow) (h1 : 1 ≤ r) :
    handleEvent ⟨Status.Running, r, true⟩ cf Event.ResumeTimeReached =
      some (⟨Status.Running, r - 1, true⟩, control_wait_until one_second,
        [TrayCall.SetTitle (format_timer (r - 1))]) := by
  unfold handleEvent duration_sub
  simp [one_second, h1]

/-- Running `n` ticks from a Running session with `n ≤ remaining` and the
tray available never panics and lands on `remaining - n`, still Running. -/
theorem run_ticks (n : Nat) : ∀ (r : Nat) (cf : ControlFlow), n ≤ r →
    ∃ cf2 calls, runEvents ⟨Status.Running, r, true⟩ cf (ticks n) =
      some (⟨Status.Running, r - n, true⟩, cf2, calls) := by
  induction n with
  | zero => exact fun r cf _ => ⟨cf, [], rfl⟩
  | succ k ih =>
      intro r cf h
      have h1 : 1 ≤ r := by omega
      obtain ⟨cf2, calls, hrun⟩ := ih (r - 1) (control_wait_until one_second) (by omega)
      have hsub : r - 1 - k = r - (k + 1) := by omega
      rw [hsub] at hrun
      refine ⟨cf2, [TrayCall.SetTitle (format_timer (r - 1))] ++ calls, ?_⟩
      show runEvents ⟨Status.Running, r, true⟩ cf (Event.ResumeTimeReached :: ticks k) = _
      rw [runEvents, handleEvent_tick_running r cf h1]
      simp only [hrun]

/-- Sequencing: if a prefix of the event list runs to completion and the
suffix then panics, the whole list panics. -/
theorem runEvents_append_none (l1 l2 : List Event) :
    ∀ (st : AppState) (cf : ControlFlow) (st2 : AppState) (cf2 : ControlFlow)
      (calls : List TrayCall),
      runEvents st cf l1 = some (st2, cf2, calls) →
      runEvents st2 cf2 l2 = none →
      runEvents st cf (l1 ++ l2) = none := by
  induction l1 with
  | nil =>
      intro st cf st2 cf2 calls h1 h2
      simp only [runEvents, Option.some.injEq, Prod.mk.injEq] at h1
      obtain ⟨hst, hcf, _⟩ := h1
      simpa [hst, hcf] using h2
  | cons ev evs ih =>
      intro st cf st2 cf2 calls h1 h2
      rw [List.cons_append]
      cases he : handleEvent st cf ev with
      | none => simp [runEvents, he] at h1
      | some res =>
          obtain ⟨s2, c2, cs⟩ := res
          simp only [runEvents, he] at h1 ⊢
          cases hr : runEvents s2 c2 evs with
          | none => simp [hr] at h1
          | some r2 =>
              obtain ⟨s3, c3, cs2⟩ := r2
              simp only [hr, Option.some.injEq, Prod.mk.injEq] at h1
              obtain ⟨hst, hcf, _⟩ := h1
              have hnone : runEvents s2 c2 (evs ++ l2) = none :=
                ih s2 c2 s3 c3 cs2 hr (by rw [hst, hcf]; exact h2)
              simp only [hnone]

/-- Once the tray resource has been released, handling any single event
makes no tray call and cannot bring the resource back. -/
theorem handleEvent_dead (st : AppState) (cf : ControlFlow) (ev : Event)
    (st2 : AppState) (cf2 : ControlFlow) (calls : List TrayCall)
    (hdead : st.system_tray = false)
    (h : handleEvent st cf ev = some (st2, cf2, calls)) :
    calls = [] ∧ st2.system_tray = false := by
  cases ev <;> unfold handleEvent at h <;>
    (try split at h) <;> (try split at h) <;> (try split at h) <;>
    (try simp_all)
  all_goals
    obtain ⟨h1, h2, h3⟩ := h
    rw [← h1]

/-- Once the tray resource has been released, no run of any further event
list makes any tray call. -/
theorem runEvents_dead (evs : List Event) :
    ∀ (st : AppState) (cf : ControlFlow) (st2 : AppState) (cf2 : ControlFlow)
      (calls : List TrayCall),
      st.system_tray = false →
      runEvents st cf evs = some (st2, cf2, calls) →
      calls = [] := by
  induction evs with
  | nil =>
      intro st cf st2 cf2 calls _ h
      simp only [runEvents, Option.some.injEq, Prod.mk.injEq] at h
      exact h.2.2.symm
  | cons ev rest ih =>
      intro st cf st2 cf2 calls hdead h
      cases he : handleEvent st cf ev with
      | none => simp [runEvents, he] at h
      | some res =>
          obtain ⟨s2, c2, cs⟩ := res
          simp only [runEvents, he] at h
          obtain ⟨hcs, hs2⟩ := handleEvent_dead st cf ev s2 c2 cs hdead he
          cases hr : runEvents s2 c2 rest with
          | none => simp [hr] at h
          | some r2 =>
              obtain ⟨s3, c3, cs2⟩ := r2
              simp only [hr, Option.some.injEq, Prod.mk.injEq] at h
              have hcs2 : cs2 = [] := ih s2 c2 s3 c3 cs2 hs2 hr
              rw [← h.2.2, hcs, hcs2]
              rfl

/-! Claim theorems. -/

/-- C4: for every non-negative whole-second count s, the formatter returns
MM:SS where minutes are s / 60 and seconds are s % 60, each zero-padded
exactly when the component is 0 to 9, and minutes are not wrapped at 59:
format 0, 65, 1199 and 3600 give "00:00", "01:05", "19:59" and "60:00". -/
theorem C4_format (s : Nat) :
    format_timer s = spec_pad2 (s / 60) ++ ":" ++ spec_pad2 (s % 60) ∧
    format_timer 0 = "00:00" ∧ format_timer 65 = "01:05" ∧
    format_timer 1199 = "19:59" ∧ format_timer 3600 = "60:00" := by
  refine ⟨?_, rfl, rfl, rfl, rfl⟩
  show format_number (s / 60) ++ ":" ++ format_number (s - s / 60 * 60) =
    spec_pad2 (s / 60) ++ ":" ++ spec_pad2 (s % 60)
  have hmod : s - s / 60 * 60 = s % 60 := by omega
  rw [hmod, format_number_eq_spec_pad2, format_number_eq_spec_pad2]

/-- C5: handling MenuSelect(Clear) from any session state with the tray
resource available sets status to Idle, resets remaining to 0 and makes
exactly one label push, whose text is "00:00". -/
theorem C5_clear (st : AppState) (cf : ControlFlow)
    (htray : st.system_tray = true) :
    handleEvent st cf (Event.MenuEvent clear_menu_id) =
      some (⟨Status.Idle, zero_seconds, true⟩, ControlFlow.Wait,
        [TrayCall.SetTitle (format_timer zero_seconds)]) ∧
    format_timer zero_seconds = "00:00" := by
  obtain ⟨s, r, t⟩ := st
  subst htray
  exact ⟨rfl, rfl⟩

/-- Witness for C5 at the concrete state Running with 77 seconds left. -/
theorem C5_clear_witness :
    handleEvent ⟨Status.Running, 77, true⟩ ControlFlow.Wait
        (Event.MenuEvent clear_menu_id) =
      some (⟨Status.Idle, zero_seconds, true⟩, ControlFlow.Wait,
        [TrayCall.SetTitle (format_timer zero_seconds)]) ∧
    format_timer zero_seconds = "00:00" :=
  C5_clear ⟨Status.Running, 77, true⟩ ControlFlow.Wait rfl

/-- C8: handling TickDue in any state whose status is not Running changes
nothing: same status, same remaining, same control flow, no tray call. -/
theorem C8_tick_nonrunning (st : AppState) (cf : ControlFlow)
    (h : st.current_status ≠ Status.Running) :
    handleEvent st cf Event.ResumeTimeReached = some (st, cf, []) := by
  unfold handleEvent
  rw [if_neg h]

/-- Witness for C8 at a concrete Paused state with 42 seconds left. -/
theorem C8_tick_nonrunning_witness :
    handleEvent ⟨Status.Paused, 42, true⟩ ControlFlow.Wait
        Event.ResumeTimeReached =
      some (⟨Status.Paused, 42, true⟩, ControlFlow.Wait, []) :=
  C8_tick_nonrunning ⟨Status.Paused, 42, true⟩ ControlFlow.Wait (by decide)

/-- C9: from Idle (with the tray available), three primary clicks in a row
end in Running with remaining = 1200 seconds: the first click sets
Running(1200s) and the pause/resume pair leaves remaining unchanged. -/
theorem C9_roundtrip (r : Nat) (cf : ControlFlow) :
    runEvents ⟨Status.Idle, r, true⟩ cf
        [Event.TrayEvent main_tray_id TrayEventKind.LeftClick,
         Event.TrayEvent main_tray_id TrayEventKind.LeftClick,
         Event.TrayEvent main_tray_id TrayEventKind.LeftClick] =
      some (⟨Status.Running, twenty_minutes, true⟩, control_wait_until one_second,
        [TrayCall.SetTitle (format_timer twenty_minutes),
         TrayCall.SetTitle (format_timer twenty_minutes)]) ∧
    handleEvent ⟨Status.Idle, r, true⟩ cf
        (Event.TrayEvent main_tray_id TrayEventKind.LeftClick) =
      some (⟨Status.Running, twenty_minutes, true⟩, control_wait_until one_second,
        [TrayCall.SetTitle (format_timer twenty_minutes)]) :=
  ⟨rfl, rfl⟩

/-- C10: a tray event whose tray identifier differs from the main tray id
is ignored entirely: state, control flow and tray-call trace all show no
effect, for every state and every click kind. -/
theorem C10_foreign_tray (st : AppState) (cf : ControlFlow) (id : String)
    (kind : TrayEventKind) (h : id ≠ main_tray_id) :
    handleEvent st cf (Event.TrayEvent id kind) = some (st, cf, []) := by
  simp only [handleEvent]
  rw [if_neg h]

/-- Witness for C10 at a concrete foreign tray id and a Running state. -/
theorem C10_foreign_tray_witness :
    handleEvent ⟨Status.Running, 30, true⟩ ControlFlow.Wait
        (Event.TrayEvent "other-tray" TrayEventKind.LeftClick) =
      some (⟨Status.Running, 30, true⟩, ControlFlow.Wait, []) :=
  C10_foreign_tray ⟨Status.Running, 30, true⟩ ControlFlow.Wait "other-tray"
    TrayEventKind.LeftClick (by decide)

/-- C1 fails as stated: 1200 ticks from Running(1200s) leave the session
with status Running (remaining 0), not Idle; the code has no transition to
Idle when remaining reaches zero. -/
theorem C1_counterexample :
    ∃ st2 cf2 calls,
      runEvents ⟨Status.Running, 1200, true⟩ ControlFlow.Wait (ticks 1200) =
        some (st2, cf2, calls) ∧ st2.current_status = Status.Running ∧
        st2.current_status ≠ Status.Idle := by
  obtain ⟨cf2, calls, h⟩ := run_ticks 1200 1200 ControlFlow.Wait (le_refl 1200)
  exact ⟨⟨Status.Running, 1200 - 1200, true⟩, cf2, calls, h, rfl, by decide⟩

/-- C1 amended: starting from Running(1200s) with the tray available, any
k ≤ 1200 ticks complete without the subtraction underflowing, leaving the
session Running with remaining = 1200 - k (so remaining is never negative
and reaches exactly 0 after 1200 ticks), but the status stays Running at
zero rather than becoming Idle. -/
theorem C1_amended (k : Nat) (h : k ≤ 1200) :
    ∃ cf2 calls,
      runEvents ⟨Status.Running, 1200, true⟩ ControlFlow.Wait (ticks k) =
        some (⟨Status.Running, 1200 - k, true⟩, cf2, calls) :=
  run_ticks k 1200 ControlFlow.Wait h

/-- Witness for the amended C1 at the full 1200-tick run. -/
theorem C1_amended_witness :
    ∃ cf2 calls,
      runEvents ⟨Status.Running, 1200, true⟩ ControlFlow.Wait (ticks 1200) =
        some (⟨Status.Running, 1200 - 1200, true⟩, cf2, calls) :=
  C1_amended 1200 (le_refl 1200)

/-- C2 fails on the code: from the initial state, one primary click
followed by 1201 ticks reaches the Duration subtraction with remaining =
0, whose underflow branch (a Rust panic) is then taken, so the run returns
none. -/
theorem C2_code_bug :
    runEvents initial_state initial_control_flow
      (Event.TrayEvent main_tray_id TrayEventKind.LeftClick :: ticks 1201) =
      none := by
  obtain ⟨cf2, calls, h1200⟩ :=
    run_ticks 1200 1200 (control_wait_until one_second) (le_refl 1200)
  have hlast : runEvents ⟨Status.Running, 1200 - 1200, true⟩ cf2 (ticks 1) =
      none := rfl
  have happ : runEvents ⟨Status.Running, 1200, true⟩
      (control_wait_until one_second) (ticks 1200 ++ ticks 1) = none :=
    runEvents_append_none (ticks 1200) (ticks 1) _ _ _ _ _ h1200 hlast
  have hticks : ticks 1200 ++ ticks 1 = ticks 1201 := by
    show List.replicate 1200 Event.ResumeTimeReached ++
      List.replicate 1 Event.ResumeTimeReached =
      List.replicate 1201 Event.ResumeTimeReached
    rw [← List.replicate_add]
  rw [hticks] at happ
  have hclick : handleEvent initial_state initial_control_flow
      (Event.TrayEvent main_tray_id TrayEventKind.LeftClick) =
      some (⟨Status.Running, 1200, true⟩, control_wait_until one_second,
        [TrayCall.SetTitle (format_timer 1200)]) := rfl
  rw [runEvents, hclick]
  simp only [happ]

/-- C6 fails as stated: with the tray resource already released, a
PrimaryClick from Paused leaves status Paused instead of performing the
Paused-to-Running transition, because the whole click handler sits inside
the tray-availability check. -/
theorem C6_counterexample :
    handleEvent ⟨Status.Paused, 1200, false⟩ ControlFlow.Wait
        (Event.TrayEvent main_tray_id TrayEventKind.LeftClick) =
      some (⟨Status.Paused, 1200, false⟩, ControlFlow.Wait, []) ∧
    Status.Paused ≠ Status.Running := ⟨rfl, by decide⟩

/-- C6 amended: when the tray resource is unavailable, nothing fails, and
only the tick keeps its state effect: TickDue in Running still decrements
remaining (label push and rescheduling skipped), while PrimaryClick and
Clear are skipped entirely, leaving the state untouched. -/
theorem C6_amended (st : AppState) (cf : ControlFlow)
    (hdead : st.system_tray = false) :
    (st.current_status = Status.Running → 1 ≤ st.current_time_left →
      handleEvent st cf Event.ResumeTimeReached =
        some ({ st with current_time_left := st.current_time_left - 1 }, cf, [])) ∧
    handleEvent st cf (Event.TrayEvent main_tray_id TrayEventKind.LeftClick) =
      some (st, cf, []) ∧
    handleEvent st cf (Event.MenuEvent clear_menu_id) = some (st, cf, []) := by
  obtain ⟨s, r, t⟩ := st
  dsimp only at hdead ⊢
  subst hdead
  refine ⟨fun hs h1 => ?_, rfl, rfl⟩
  subst hs
  simp [handleEvent, duration_sub, one_second, h1]

/-- Witness for the amended C6 at a released tray and Running(5s). -/
theorem C6_amended_witness :
    ((Status.Running = Status.Running → 1 ≤ (5 : Nat) →
      handleEvent ⟨Status.Running, 5, false⟩ ControlFlow.Wait
          Event.ResumeTimeReached =
        some (⟨Status.Running, 4, false⟩, ControlFlow.Wait, [])) ∧
    handleEvent ⟨Status.Running, 5, false⟩ ControlFlow.Wait
        (Event.TrayEvent main_tray_id TrayEventKind.LeftClick) =
      some (⟨Status.Running, 5, false⟩, ControlFlow.Wait, []) ∧
    handleEvent ⟨Status.Running, 5, false⟩ ControlFlow.Wait
        (Event.MenuEvent clear_menu_id) =
      some (⟨Status.Running, 5, false⟩, ControlFlow.Wait, [])) :=
  C6_amended ⟨Status.Running, 5, false⟩ ControlFlow.Wait rfl

/-- C7: handling MenuSelect(Quit) with the tray still held releases the
tray resource exactly once and sets the Exit control flow; and whatever
events are delivered afterwards (from the released-tray state the Quit
handler leaves), their run makes no tray call at all, so in particular no
further setLabel and no second release. -/
theorem C7_quit (st : AppState) (cf : ControlFlow) (evs : List Event)
    (st2 : AppState) (cf2 : ControlFlow) (calls : List TrayCall)
    (htray : st.system_tray = true)
    (hrun : runEvents { st with system_tray := false } ControlFlow.Exit evs =
      some (st2, cf2, calls)) :
    handleEvent st cf (Event.MenuEvent quit_menu_id) =
      some ({ st with system_tray := false }, ControlFlow.Exit,
        [TrayCall.Release]) ∧
    calls = [] := by
  constructor
  · obtain ⟨s, r, t⟩ := st
    dsimp only at htray
    subst htray
    rfl
  · exact runEvents_dead evs { st with system_tray := false } ControlFlow.Exit
      st2 cf2 calls rfl hrun

/-- Witness for C7: Quit from Running(9s), followed by a tick, a Clear and
a click, whose run after the release makes no tray call. -/
theorem C7_quit_witness :
    handleEvent ⟨Status.Running, 9, true⟩ ControlFlow.Wait
        (Event.MenuEvent quit_menu_id) =
      some (⟨Status.Running, 9, false⟩, ControlFlow.Exit, [TrayCall.Release]) ∧
    ([] : List TrayCall) = [] :=
  C7_quit ⟨Status.Running, 9, true⟩ ControlFlow.Wait
    [Event.ResumeTimeReached, Event.MenuEvent clear_menu_id,
     Event.TrayEvent main_tray_id TrayEventKind.LeftClick]
    ⟨Status.Running, 8, false⟩ ControlFlow.Exit [] rfl rfl

/-- C3 fails as stated: the Paused-to-Running resume on PrimaryClick
changes the status but makes no label push (empty tray-call trace). -/
theorem C3_counterexample :
    handleEvent ⟨Status.Paused, 300, true⟩ ControlFlow.Wait
        (Event.TrayEvent main_tray_id TrayEventKind.LeftClick) =
      some (⟨Status.Running, 300, true⟩, control_wait_until one_second, []) ∧
    Status.Running ≠ Status.Paused := ⟨rfl, by decide⟩

/-- C3 amended: for every event handled with the tray available, if the
handling changes status or remaining then exactly one label push is made,
formatted from the post-transition remaining — except the Paused-to-Running
resume on PrimaryClick, which makes no push; and if the handling changes
neither, no label push is made — except Clear received in Idle with
remaining 0, which still pushes the formatted zero label. -/
theorem C3_amended (st : AppState) (cf : ControlFlow) (ev : Event)
    (st2 : AppState) (cf2 : ControlFlow) (calls : List TrayCall)
    (htray : st.system_tray = true)
    (h : handleEvent st cf ev = some (st2, cf2, calls)) :
    ((st2.current_status ≠ st.current_status ∨
        st2.current_time_left ≠ st.current_time_left) →
      labelPushes calls = [format_timer st2.current_time_left] ∨
        (ev = Event.TrayEvent main_tray_id TrayEventKind.LeftClick ∧
          st.current_status = Status.Paused ∧ labelPushes calls = [])) ∧
    ((st2.current_status = st.current_status ∧
        st2.current_time_left = st.current_time_left) →
      labelPushes calls = [] ∨
        (ev = Event.MenuEvent clear_menu_id ∧ st.current_status = Status.Idle ∧
          st.current_time_left = 0 ∧ labelPushes calls = [format_timer 0])) := by
  obtain ⟨s, r, t⟩ := st
  dsimp only at htray ⊢
  subst htray
  cases ev with
  | Init =>
      have hh : some ((⟨s, r, true⟩ : AppState), ControlFlow.Wait,
          ([] : List TrayCall)) = some (st2, cf2, calls) := h
      simp only [Option.some.injEq, Prod.mk.injEq] at hh
      obtain ⟨h1, h2, h3⟩ := hh
      subst h1; subst h3
      exact ⟨fun hch => ((hch.elim (fun h0 => h0 rfl) (fun h0 => h0 rfl)).elim),
        fun _ => Or.inl rfl⟩
  | ResumeTimeReached =>
      simp only [handleEvent] at h
      by_cases hs : s = Status.Running
      · rw [if_pos hs] at h
        cases hd : duration_sub r one_second with
        | none =>
            rw [hd] at h
            exact Option.noConfusion
              (show (none : Option (AppState × ControlFlow × List TrayCall)) =
                some (st2, cf2, calls) from h)
        | some u =>
            have hru : 1 ≤ r ∧ u = r - 1 := by
              unfold duration_sub one_second at hd
              split at hd <;> simp_all
            rw [hd] at h
            have hh : some ((⟨s, u, true⟩ : AppState),
                control_wait_until one_second,
                [TrayCall.SetTitle (format_timer u)]) =
                some (st2, cf2, calls) := h
            simp only [Option.some.injEq, Prod.mk.injEq] at hh
            obtain ⟨h1, h2, h3⟩ := hh
            subst h1; subst h3
            refine ⟨fun _ => Or.inl rfl, fun hc => absurd hc.2 ?_⟩
            dsimp only
            omega
      · rw [if_neg hs] at h
        have hh : some ((⟨s, r, true⟩ : AppState), cf, ([] : List TrayCall)) =
            some (st2, cf2, calls) := h
        simp only [Option.some.injEq, Prod.mk.injEq] at hh
        obtain ⟨h1, h2, h3⟩ := hh
        subst h1; subst h3
        exact ⟨fun hch => ((hch.elim (fun h0 => h0 rfl) (fun h0 => h0 rfl)).elim),
          fun _ => Or.inl rfl⟩
  | MenuEvent menu_id =>
      simp only [handleEvent] at h
      by_cases hq : menu_id = quit_menu_id
      · rw [if_pos hq] at h
        have hh : some ((⟨s, r, false⟩ : AppState), ControlFlow.Exit,
            [TrayCall.Release]) = some (st2, cf2, calls) := h
        simp only [Option.some.injEq, Prod.mk.injEq] at hh
        obtain ⟨h1, h2, h3⟩ := hh
        subst h1; subst h3
        exact ⟨fun hch => ((hch.elim (fun h0 => h0 rfl) (fun h0 => h0 rfl)).elim),
          fun _ => Or.inl rfl⟩
      · rw [if_neg hq] at h
        by_cases hcl : menu_id = clear_menu_id
        · rw [if_pos hcl] at h
          subst hcl
          have hh : some ((⟨Status.Idle, zero_seconds, true⟩ : AppState),
              ControlFlow.Wait,
              [TrayCall.SetTitle (format_timer zero_seconds)]) =
              some (st2, cf2, calls) := h
          simp only [Option.some.injEq, Prod.mk.injEq] at hh
          obtain ⟨h1, h2, h3⟩ := hh
          subst h1; subst h3
          refine ⟨fun _ => Or.inl rfl, fun hc => Or.inr ⟨rfl, ?_, ?_, rfl⟩⟩
          · exact hc.1.symm
          · exact hc.2.symm
        · rw [if_neg hcl] at h
          have hh : some ((⟨s, r, true⟩ : AppState), cf, ([] : List TrayCall)) =
              some (st2, cf2, calls) := h
          simp only [Option.some.injEq, Prod.mk.injEq] at hh
          obtain ⟨h1, h2, h3⟩ := hh
          subst h1; subst h3
          exact ⟨fun hch => ((hch.elim (fun h0 => h0 rfl) (fun h0 => h0 rfl)).elim),
            fun _ => Or.inl rfl⟩
  | TrayEvent id kind =>
      simp only [handleEvent] at h
      by_cases hid : id = main_tray_id
      · rw [if_pos hid] at h
        subst hid
        cases kind with
        | LeftClick =>
            cases s with
            | Idle =>
                have hh : some ((⟨Status.Running, twenty_minutes, true⟩ : AppState),
                    control_wait_until one_second,
                    [TrayCall.SetTitle (format_timer twenty_minutes)]) =
                    some (st2, cf2, calls) := h
                simp only [Option.some.injEq, Prod.mk.injEq] at hh
                obtain ⟨h1, h2, h3⟩ := hh
                subst h1; subst h3
                exact ⟨fun _ => Or.inl rfl, fun hc => Status.noConfusion hc.1⟩
            | Running =>
                have hh : some ((⟨Status.Paused, r, true⟩ : AppState),
                    ControlFlow.Wait,
                    [TrayCall.SetTitle (format_timer r)]) =
                    some (st2, cf2, calls) := h
                simp only [Option.some.injEq, Prod.mk.injEq] at hh
                obtain ⟨h1, h2, h3⟩ := hh
                subst h1; subst h3
                exact ⟨fun _ => Or.inl rfl, fun hc => Status.noConfusion hc.1⟩
            | Paused =>
                have hh : some ((⟨Status.Running, r, true⟩ : AppState),
                    control_wait_until one_second, ([] : List TrayCall)) =
                    some (st2, cf2, calls) := h
                simp only [Option.some.injEq, Prod.mk.injEq] at hh
                obtain ⟨h1, h2, h3⟩ := hh
                subst h1; subst h3
                exact ⟨fun _ => Or.inr ⟨rfl, rfl, rfl⟩,
                  fun hc => Status.noConfusion hc.1⟩
        | RightClick =>
            have hh : some ((⟨s, r, true⟩ : AppState), cf, ([] : List TrayCall)) =
                some (st2, cf2, calls) := h
            simp only [Option.some.injEq, Prod.mk.injEq] at hh
            obtain ⟨h1, h2, h3⟩ := hh
            subst h1; subst h3
            exact ⟨fun hch => ((hch.elim (fun h0 => h0 rfl) (fun h0 => h0 rfl)).elim),
              fun _ => Or.inl rfl⟩
        | DoubleClick =>
            have hh : some ((⟨s, r, true⟩ : AppState), cf, ([] : List TrayCall)) =
                some (st2, cf2, calls) := h
            simp only [Option.some.injEq, Prod.mk.injEq] at hh
            obtain ⟨h1, h2, h3⟩ := hh
            subst h1; subst h3
            exact ⟨fun hch => ((hch.elim (fun h0 => h0 rfl) (fun h0 => h0 rfl)).elim),
              fun _ => Or.inl rfl⟩
      · rw [if_neg hid] at h
        have hh : some ((⟨s, r, true⟩ : AppState), cf, ([] : List TrayCall)) =
            some (st2, cf2, calls) := h
        simp only [Option.some.injEq, Prod.mk.injEq] at hh
        obtain ⟨h1, h2, h3⟩ := hh
        subst h1; subst h3
        exact ⟨fun hch => ((hch.elim (fun h0 => h0 rfl) (fun h0 => h0 rfl)).elim),
          fun _ => Or.inl rfl⟩
  | Other =>
      have hh : some ((⟨s, r, true⟩ : AppState), cf, ([] : List TrayCall)) =
          some (st2, cf2, calls) := h
      simp only [Option.some.injEq, Prod.mk.injEq] at hh
      obtain ⟨h1, h2, h3⟩ := hh
      subst h1; subst h3
      exact ⟨fun hch => ((hch.elim (fun h0 => h0 rfl) (fun h0 => h0 rfl)).elim),
        fun _ => Or.inl rfl⟩

/-- Witness for the amended C3 at the Idle-to-Running click (state change
with exactly one push of the new label). -/
theorem C3_amended_witness :
    ((Status.Running ≠ Status.Idle ∨ twenty_minutes ≠ (0 : Nat)) →
      labelPushes [TrayCall.SetTitle (format_timer twenty_minutes)] =
          [format_timer twenty_minutes] ∨
        (Event.TrayEvent main_tray_id TrayEventKind.LeftClick =
            Event.TrayEvent main_tray_id TrayEventKind.LeftClick ∧
          Status.Idle = Status.Paused ∧
          labelPushes [TrayCall.SetTitle (format_timer twenty_minutes)] = [])) ∧
    ((Status.Running = Status.Idle ∧ twenty_minutes = (0 : Nat)) →
      labelPushes [TrayCall.SetTitle (format_timer twenty_minutes)] = [] ∨
        (Event.TrayEvent main_tray_id TrayEventKind.LeftClick =
            Event.MenuEvent clear_menu_id ∧
          Status.Idle = Status.Idle ∧ (0 : Nat) = 0 ∧
          labelPushes [TrayCall.SetTitle (format_timer twenty_minutes)] =
            [format_timer 0])) :=
  C3_amended ⟨Status.Idle, 0, true⟩ ControlFlow.Wait
    (Event.TrayEvent main_tray_id TrayEventKind.LeftClick)
    ⟨Status.Running, twenty_minutes, true⟩ (control_wait_until one_second)
    [TrayCall.SetTitle (format_timer twenty_minutes)] rfl rfl
